import Mathlib

/-!
# Verification of the econ-sim epoch-driven economic simulator

Shallow embedding of `src/main.rs` (renproject/econ-sim). The Rust program
simulates a fee/rebate economy: a `State` snapshot per epoch, pure model
functions of the prior history, and a driver that folds a step function over
a configured number of epochs starting from the all-zero genesis state.

Numeric quantities (`f64` in the source) are modelled as exact rationals `ℚ`.
Fallible access to the latest history entry (the Rust `expect` panic in
`latest_state`) is modelled with `Option`.
-/

/-- `State` from `src/main.rs`: the state of RenVM at the end of an epoch.
All `USD`/`Percentage` fields (`f64` in the source) are modelled as `ℚ`. -/
structure State where
  tvb : ℚ
  tvl : ℚ
  tvr : ℚ
  mf : ℚ
  bf : ℚ
  r : ℚ
  f_unclaimed : ℚ
  f_claimed : ℚ
  r_pool : ℚ
  deriving DecidableEq, Repr

/-- `State::default()`: all fields zero (Rust `#[derive(Default)]` on `f64`s). -/
def State.default : State :=
  { tvb := 0, tvl := 0, tvr := 0, mf := 0, bf := 0, r := 0
    f_unclaimed := 0, f_claimed := 0, r_pool := 0 }

/-- `latest_state`: `history.iter().last().expect("missing initial state")`.
The panic on an empty history is modelled as `none`. -/
def latest_state (history : List State) : Option State :=
  history.getLast?

/-- `total_value_bonded`: average the trailing (up to 7) epoch-over-epoch
`f_claimed` deltas with the fixed divisor `7.0`, annualize by `365`, divide by
the target ROI `0.05`.  `history.windows(2)` is the list of consecutive pairs,
modelled by `history.zip history.tail`; `.rev().take(7)` keeps the last
(up to) 7 deltas. -/
def total_value_bonded (history : List State) : ℚ :=
  let per_annum :=
    (((history.zip history.tail).map fun w => w.2.f_claimed - w.1.f_claimed).reverse.take 7).sum
      / 7 * 365
  let roi : ℚ := 5 / 100
  per_annum / roi

/-- `mint_volume`: the basic model, a constant $4M per epoch. -/
def mint_volume (_history : List State) : ℚ :=
  4000000

/-- Body of `burn_volume` applied to the latest state: $2M baseline, plus an
arbitrage adjustment `min(r_pool / r, 1_000_000 * (r / 0.001))` when the
rebate rate is at least `0.001`. -/
def burn_volume_of (state : State) : ℚ :=
  if state.r ≥ 1 / 1000 then
    2000000 + min (state.r_pool / state.r) (1000000 * (state.r / (1 / 1000)))
  else
    2000000

/-- `burn_volume`: reads the latest state (panics on empty history, hence
`Option`) and applies the arbitrage-adjusted model. -/
def burn_volume (history : List State) : Option ℚ :=
  (latest_state history).map burn_volume_of

/-- `mint_fee_curve`: static `0.003` minting fee. -/
def mint_fee_curve (_history : List State) : ℚ :=
  3 / 1000

/-- Body of `burn_fee_curve` applied to the latest state: `0.001` when
`tvl < tvb`, else `0`. -/
def burn_fee_curve_of (state : State) : ℚ :=
  if state.tvl < state.tvb then 1 / 1000 else 0

/-- `burn_fee_curve`: reads the latest state (panics on empty history, hence
`Option`) and applies the fee rule. -/
def burn_fee_curve (history : List State) : Option ℚ :=
  (latest_state history).map burn_fee_curve_of

/-- Body of `rebate_curve` given the latest state and the history: when
`tvb < tvl`, compare the current gap `tvl - tvb` against the sum of the gap
over the last (up to) 7 entries divided by the fixed `7.0`
(`history.iter().rev().take(7)` includes the latest entry); decrease the rate
by `0.0001` floored at `0` when the gap is below that value, otherwise
increase it by `0.0001`.  When `tvb < tvl` fails, return `0`. -/
def rebate_curve_of (state : State) (history : List State) : ℚ :=
  if state.tvb < state.tvl then
    if state.tvl - state.tvb <
        ((history.reverse.take 7).map fun s => s.tvl - s.tvb).sum / 7 then
      max (state.r - 1 / 10000) 0
    else
      state.r + 1 / 10000
  else
    0

/-- `rebate_curve`: reads the latest state (panics on empty history, hence
`Option`) and applies the rebate rule. -/
def rebate_curve (history : List State) : Option ℚ :=
  (latest_state history).map fun state => rebate_curve_of state history

/-- `rebate_collected`: 50% of the fee amount is diverted to the rebate pool. -/
def rebate_collected (_history : List State) (f : ℚ) : ℚ :=
  f * (1 / 2)

/-- One iteration of the fold body in `main`, given the previous (latest)
state `prev` and the prior history: query all models against the prior
history, then derive the next state.  `0.024451` is the fixed claim rate. -/
def next_state (prev : State) (history : List State) : State :=
  let mv := mint_volume history
  let bv := burn_volume_of prev
  let mf := mint_fee_curve history
  let bf := burn_fee_curve_of prev
  let r := rebate_curve_of prev history
  let r_paid := bv * r
  let f_collected := mv * mf + bv * bf
  let r_collected := rebate_collected history f_collected
  let f_net := f_collected - r_collected
  let claim := prev.f_unclaimed * (24451 / 1000000)
  { tvb := total_value_bonded history
    tvl := prev.tvl + mv - bv
    tvr := prev.tvr + r_collected
    mf := mf
    bf := bf
    r := r
    f_unclaimed := prev.f_unclaimed + f_net - claim
    f_claimed := prev.f_claimed + claim
    r_pool := max (prev.r_pool + r_collected - r_paid) 0 }

/-- One epoch step of the driver: read the latest state (`none` models the
panic on an empty history, which the driver never produces) and append the
newly derived state. -/
def step (history : List State) : Option (List State) :=
  (latest_state history).map fun prev => history ++ [next_state prev history]

/-- The driver of `main`: fold `step` for `n` epochs over the history seeded
with the genesis (all-zero) state. -/
def run : Nat → Option (List State)
  | 0 => some [State.default]
  | n + 1 => (run n).bind step

/-- The spec's reading of `TotalValueBonded`: the *average* of the trailing
(up to 7) `f_claimed` deltas — sum divided by however many deltas exist —
annualized by `365` and divided by the 5% target ROI.  Written from the
spec's words for comparison with `total_value_bonded` (which the source
implements with a fixed divisor of `7.0`). -/
def total_value_bonded_spec (history : List State) : ℚ :=
  let deltas :=
    ((history.zip history.tail).map fun w => w.2.f_claimed - w.1.f_claimed).reverse.take 7
  deltas.sum / (deltas.length : ℚ) * 365 / (5 / 100)

/-- The spec's reading of `RebateCurve`: compare the current gap to the
*average* gap over the trailing (up to 7) entries — sum divided by however
many entries exist.  Written from the spec's words for comparison with
`rebate_curve` (which the source implements with a fixed divisor of `7.0`). -/
def rebate_curve_spec (history : List State) : Option ℚ :=
  (latest_state history).map fun state =>
    let gaps := (history.reverse.take 7).map fun s => s.tvl - s.tvb
    if state.tvb < state.tvl then
      if state.tvl - state.tvb < gaps.sum / (gaps.length : ℚ) then
        max (state.r - 1 / 10000) 0
      else
        state.r + 1 / 10000
    else
      0

/-- The state appended by the first epoch step from the genesis history
(spec §8 end-to-end scenario). -/
def epoch1 : State :=
  { tvb := 0, tvl := 2000000, tvr := 6000, mf := 3 / 1000, bf := 0, r := 0
    f_unclaimed := 6000, f_claimed := 0, r_pool := 6000 }

/-- C7: `total_value_bonded` on a history with fewer than 2 entries
returns 0 (there are no `windows(2)` pairs to sum). -/
theorem total_value_bonded_short (h : List State) (hlen : h.length < 2) :
    total_value_bonded h = 0 := by
  rcases h with _ | ⟨a, _ | ⟨b, t⟩⟩
  · simp [total_value_bonded]
  · simp [total_value_bonded]
  · simp only [List.length_cons] at hlen
    omega

/-- Witness for C7 at the genesis-only history. -/
theorem total_value_bonded_short_witness :
    total_value_bonded [State.default] = 0 :=
  total_value_bonded_short [State.default] (by decide)

/-- A successfully read latest state is a member of the history. -/
lemma mem_of_latest_state {h : List State} {s : State}
    (e : latest_state h = some s) : s ∈ h := by
  unfold latest_state at e
  obtain ⟨hne, rfl⟩ := List.mem_getLast?_eq_getLast (Option.mem_def.mpr e)
  exact List.getLast_mem hne

/-- C9: `latest_state` fails exactly on the empty history; on any non-empty
history it returns the last entry. -/
theorem latest_state_total (h : List State) :
    (latest_state h = none ↔ h = []) ∧
    ∀ hne : h ≠ [], latest_state h = some (h.getLast hne) :=
  ⟨List.getLast?_eq_none_iff, fun hne => List.getLast?_eq_getLast h hne⟩

/-- Witness for C9 at the genesis-only history. -/
theorem latest_state_total_witness :
    latest_state [State.default] = some State.default :=
  (latest_state_total [State.default]).2 (by simp)

/-- C8: determinism — two runs with the same (baseline) models and the same
step count produce identical histories. -/
theorem run_deterministic (n : Nat) (h₁ h₂ : List State)
    (e₁ : run n = some h₁) (e₂ : run n = some h₂) : h₁ = h₂ := by
  rw [e₁] at e₂
  exact Option.some_injective _ e₂

/-- Witness for C8 at zero steps. -/
theorem run_deterministic_witness :
    ([State.default] : List State) = [State.default] :=
  run_deterministic 0 [State.default] [State.default] rfl rfl

/-- C2: on any non-empty history, at most one of `burn_fee_curve` and
`rebate_curve` is positive: a positive burn fee forces a zero rebate rate and
vice versa. -/
theorem burn_fee_rebate_exclusive (h : List State) (b rr : ℚ)
    (hb : burn_fee_curve h = some b) (hr : rebate_curve h = some rr) :
    (0 < b → rr = 0) ∧ (0 < rr → b = 0) := by
  rcases e : latest_state h with _ | s
  · simp [burn_fee_curve, e] at hb
  · simp only [burn_fee_curve, rebate_curve, e, Option.map_some'] at hb hr
    rw [Option.some_inj] at hb hr
    subst hb hr
    constructor
    · intro hpos
      by_cases hlt : s.tvl < s.tvb
      · have hnot : ¬ s.tvb < s.tvl := not_lt.mpr hlt.le
        simp [rebate_curve_of, hnot]
      · simp [burn_fee_curve_of, hlt] at hpos
    · intro hpos
      by_cases hlt : s.tvb < s.tvl
      · have hnot : ¬ s.tvl < s.tvb := not_lt.mpr hlt.le
        simp [burn_fee_curve_of, hnot]
      · simp [rebate_curve_of, hlt] at hpos

/-- A state with `tvl < tvb`, used to exercise the positive-burn-fee branch. -/
def lowTvl : State :=
  { State.default with tvb := 2, tvl := 1 }

/-- Witness for C2 at a history whose latest state has `tvl < tvb`: the burn
fee is the positive `0.001` and the rebate rate is `0`. -/
theorem burn_fee_rebate_exclusive_witness :
    burn_fee_curve [lowTvl] = some (1 / 1000) ∧
    rebate_curve [lowTvl] = some 0 ∧
    (((0 : ℚ) < 1 / 1000 → (0 : ℚ) = 0) ∧ ((0 : ℚ) < 0 → (1 / 1000 : ℚ) = 0)) :=
  ⟨by norm_num [burn_fee_curve, latest_state, burn_fee_curve_of, lowTvl, State.default],
    by norm_num [rebate_curve, latest_state, rebate_curve_of, lowTvl, State.default],
    burn_fee_rebate_exclusive [lowTvl] (1 / 1000) 0
      (by norm_num [burn_fee_curve, latest_state, burn_fee_curve_of, lowTvl, State.default])
      (by norm_num [rebate_curve, latest_state, rebate_curve_of, lowTvl, State.default])⟩

/-- C4: `burn_volume` on a non-empty history is exactly `2_000_000` when the
latest rebate rate is below `0.001`, and otherwise adds
`min (r_pool / r) (1_000_000 * (r / 0.001))`. -/
theorem burn_volume_formula (h : List State) (s : State)
    (e : latest_state h = some s) :
    (s.r < 1 / 1000 → burn_volume h = some 2000000) ∧
    (1 / 1000 ≤ s.r →
      burn_volume h =
        some (2000000 + min (s.r_pool / s.r) (1000000 * (s.r / (1 / 1000))))) := by
  constructor
  · intro hlt
    simp only [burn_volume, e, Option.map_some', burn_volume_of]
    rw [if_neg (not_le.mpr hlt)]
  · intro hge
    simp only [burn_volume, e, Option.map_some', burn_volume_of]
    rw [if_pos hge]

/-- A state with an arbitrage-worthy rebate rate and a small rebate pool. -/
def arbState : State :=
  { State.default with r := 1 / 100, r_pool := 50 }

/-- Witness for C4 at a history whose latest state has `r = 0.01 ≥ 0.001`. -/
theorem burn_volume_formula_witness :
    (1 / 1000 : ℚ) ≤ arbState.r ∧
    burn_volume [arbState] =
      some (2000000 + min (arbState.r_pool / arbState.r)
        (1000000 * (arbState.r / (1 / 1000)))) :=
  ⟨by norm_num [arbState, State.default],
    (burn_volume_formula [arbState] arbState rfl).2
      (by norm_num [arbState, State.default])⟩

/-- A 2-entry history with a single trailing `f_claimed` delta of `7`. -/
def cexTVB : List State :=
  [State.default, { State.default with f_claimed := 7 }]

/-- C1 counterexample: at a 2-entry history (1 delta, inside the claimed
range `2 ≤ len < 8`) whose single `f_claimed` delta is `7`, the code divides
the delta sum by the fixed `7.0` and returns `7300`, while the claim's
average over the `k = 1` existing deltas demands `7 / 1 * 365 / 0.05 =
51100`. -/
theorem total_value_bonded_fixed_divisor_cex :
    cexTVB.length = 2 ∧
    total_value_bonded cexTVB = 7300 ∧
    total_value_bonded_spec cexTVB = 51100 ∧
    total_value_bonded cexTVB ≠ total_value_bonded_spec cexTVB := by
  have h1 : total_value_bonded cexTVB = 7300 := by
    norm_num [total_value_bonded, cexTVB, State.default]
  have h2 : total_value_bonded_spec cexTVB = 51100 := by
    norm_num [total_value_bonded_spec, cexTVB, State.default]
  refine ⟨rfl, h1, h2, ?_⟩
  rw [h1, h2]
  norm_num

/-- C1 amended: for a history with at least 2 and fewer than 8 entries (so
`k` deltas, `1 ≤ k < 7`), `total_value_bonded` is the SUM of the `k` trailing
`f_claimed` deltas divided by the fixed `7` — not by `k` — then multiplied by
`365` and divided by `0.05`. -/
theorem total_value_bonded_short_window (h : List State)
    (h2 : 2 ≤ h.length) (h8 : h.length < 8) :
    total_value_bonded h =
      ((h.zip h.tail).map fun w => w.2.f_claimed - w.1.f_claimed).sum
        / 7 * 365 / (5 / 100) := by
  unfold total_value_bonded
  have hlen :
      (((h.zip h.tail).map fun w => w.2.f_claimed - w.1.f_claimed).sum =
        (((h.zip h.tail).map fun w => w.2.f_claimed - w.1.f_claimed).reverse.take 7).sum) := by
    rw [List.take_of_length_le, List.sum_reverse]
    simp only [List.length_reverse, List.length_map, List.length_zip, List.length_tail]
    omega
  rw [← hlen]

/-- Witness for the amended C1 at the 2-entry history. -/
theorem total_value_bonded_short_window_witness :
    2 ≤ cexTVB.length ∧ cexTVB.length < 8 ∧
    total_value_bonded cexTVB =
      ((cexTVB.zip cexTVB.tail).map fun w => w.2.f_claimed - w.1.f_claimed).sum
        / 7 * 365 / (5 / 100) :=
  ⟨by decide, by decide,
    total_value_bonded_short_window cexTVB (by decide) (by decide)⟩



/-- Latest entry of the `rebate_curve` counterexample history: gap `1`,
rebate rate `1`. -/
def cexRCLast : State :=
  { State.default with tvl := 1, r := 1 }

/-- A 2-entry history whose gaps `tvl - tvb` are `3` then `1`. -/
def cexRC : List State :=
  [{ State.default with tvl := 3 }, cexRCLast]

/-- C3 counterexample: the trailing gaps are `[3, 1]` with current gap `1`.
The code compares against the fixed-divisor value `4 / 7 < 1` and so
increases the rate to `1.0001`; the claim's trailing average over the 2
existing entries is `4 / 2 = 2 > 1`, which demands the decreased rate
`0.9999`. -/
theorem rebate_curve_fixed_divisor_cex :
    rebate_curve cexRC = some (10001 / 10000) ∧
    rebate_curve_spec cexRC = some (9999 / 10000) ∧
    rebate_curve cexRC ≠ rebate_curve_spec cexRC := by
  have h1 : rebate_curve cexRC = some (10001 / 10000) := by
    norm_num [rebate_curve, latest_state, rebate_curve_of, cexRC, cexRCLast, State.default]
  have h2 : rebate_curve_spec cexRC = some (9999 / 10000) := by
    norm_num [rebate_curve_spec, latest_state, cexRC, cexRCLast, State.default]
  refine ⟨h1, h2, ?_⟩
  rw [h1, h2]
  norm_num

/-- C3 amended: on a non-empty history with latest state `s`, `rebate_curve`
returns `0` when `tvb < tvl` fails; otherwise it compares the current gap
against the trailing (up to 7) gap sum divided by the fixed `7` — not the
average over fewer existing entries — decreasing by `0.0001` floored at `0`
below that value and increasing by `0.0001` (no upper bound) otherwise. -/
theorem rebate_curve_cases (h : List State) (s : State)
    (e : latest_state h = some s) :
    (¬ s.tvb < s.tvl → rebate_curve h = some 0) ∧
    (s.tvb < s.tvl →
      (s.tvl - s.tvb < ((h.reverse.take 7).map fun t => t.tvl - t.tvb).sum / 7 →
        rebate_curve h = some (max (s.r - 1 / 10000) 0)) ∧
      (¬ s.tvl - s.tvb < ((h.reverse.take 7).map fun t => t.tvl - t.tvb).sum / 7 →
        rebate_curve h = some (s.r + 1 / 10000))) := by
  constructor
  · intro hnot
    simp only [rebate_curve, e, Option.map_some', rebate_curve_of]
    rw [if_neg hnot]
  · intro hlt
    constructor
    · intro hcmp
      simp only [rebate_curve, e, Option.map_some', rebate_curve_of]
      rw [if_pos hlt, if_pos hcmp]
    · intro hcmp
      simp only [rebate_curve, e, Option.map_some', rebate_curve_of]
      rw [if_pos hlt, if_neg hcmp]

/-- Witness for the amended C3 at the counterexample history (the
gap-not-shrinking branch, so the rate increases by the step). -/
theorem rebate_curve_cases_witness :
    rebate_curve cexRC = some (cexRCLast.r + 1 / 10000) :=
  ((rebate_curve_cases cexRC cexRCLast rfl).2
      (by norm_num [cexRCLast, State.default])).2
    (by norm_num [cexRC, cexRCLast, State.default])

/-- The first epoch step from genesis yields exactly `epoch1`. -/
lemma next_state_genesis : next_state State.default [State.default] = epoch1 := by
  norm_num [next_state, epoch1, State.default, mint_volume, mint_fee_curve,
    burn_volume_of, burn_fee_curve_of, rebate_curve_of, rebate_collected,
    total_value_bonded, latest_state, max_def]

/-- One driver step from the genesis history. -/
lemma run_one : run 1 = some [State.default, epoch1] := by
  have h0 : run 1 = some ([State.default] ++ [next_state State.default [State.default]]) := rfl
  rw [h0, next_state_genesis]
  rfl

/-- Per-state invariant maintained by the driver: non-negative rebate rate,
rebate pool, and unclaimed fees. -/
def StateInv (s : State) : Prop :=
  0 ≤ s.r ∧ 0 ≤ s.r_pool ∧ 0 ≤ s.f_unclaimed

/-- History invariant maintained by the driver: every state satisfies
`StateInv`, and `f_claimed` never decreases between consecutive states. -/
def HistInv (h : List State) : Prop :=
  (∀ s ∈ h, StateInv s) ∧ h.Chain' fun a b => a.f_claimed ≤ b.f_claimed

lemma burn_volume_of_nonneg {s : State} (hr : 0 ≤ s.r) (hp : 0 ≤ s.r_pool) :
    0 ≤ burn_volume_of s := by
  unfold burn_volume_of
  split_ifs with hge
  · have h1 : 0 ≤ s.r_pool / s.r := div_nonneg hp hr
    have h2 : (0 : ℚ) ≤ 1000000 * (s.r / (1 / 1000)) :=
      mul_nonneg (by norm_num) (div_nonneg hr (by norm_num))
    have hmin := le_min h1 h2
    linarith
  · norm_num

lemma burn_fee_curve_of_nonneg (s : State) : 0 ≤ burn_fee_curve_of s := by
  unfold burn_fee_curve_of
  split_ifs <;> norm_num

lemma rebate_curve_of_nonneg {s : State} (h : List State) (hr : 0 ≤ s.r) :
    0 ≤ rebate_curve_of s h := by
  unfold rebate_curve_of
  split_ifs
  · exact le_max_right _ _
  · linarith
  · exact le_refl 0

/-- The step body preserves the per-state invariant and never decreases
`f_claimed`. -/
lemma next_state_inv {prev : State} (hinv : StateInv prev) (h : List State) :
    StateInv (next_state prev h) ∧ prev.f_claimed ≤ (next_state prev h).f_claimed := by
  obtain ⟨hr, hp, hu⟩ := hinv
  have hbv : 0 ≤ burn_volume_of prev := burn_volume_of_nonneg hr hp
  have hbf : 0 ≤ burn_fee_curve_of prev := burn_fee_curve_of_nonneg prev
  have hrc : 0 ≤ rebate_curve_of prev h := rebate_curve_of_nonneg h hr
  have hfee : 0 ≤ burn_volume_of prev * burn_fee_curve_of prev := mul_nonneg hbv hbf
  simp only [next_state, StateInv, mint_volume, mint_fee_curve, rebate_collected]
  refine ⟨⟨hrc, le_max_right _ _, ?_⟩, ?_⟩
  · linarith
  · linarith

/-- One driver step preserves the history invariant. -/
lemma step_histInv {h h' : List State} (hinv : HistInv h) (e : step h = some h') :
    HistInv h' := by
  unfold step at e
  rcases el : latest_state h with _ | prev
  · rw [el] at e
    exact absurd e (by simp)
  · rw [el, Option.map_some', Option.some_inj] at e
    subst e
    obtain ⟨hall, hchain⟩ := hinv
    have hprev : StateInv prev := hall prev (mem_of_latest_state el)
    obtain ⟨hnsi, hfc⟩ := next_state_inv hprev h
    constructor
    · intro s hs
      rcases List.mem_append.mp hs with hs | hs
      · exact hall s hs
      · rw [List.mem_singleton.mp hs]
        exact hnsi
    · refine hchain.append (List.chain'_singleton _) ?_
      intro x hx y hy
      rw [Option.mem_def] at hx hy
      unfold latest_state at el
      rw [el, Option.some_inj] at hx
      simp only [List.head?_cons, Option.some_inj] at hy
      subst hx
      subst hy
      exact hfc

/-- Every driver-produced history satisfies the history invariant. -/
lemma run_histInv : ∀ n h, run n = some h → HistInv h := by
  intro n
  induction n with
  | zero =>
    intro h e
    simp only [run, Option.some_inj] at e
    subst e
    refine ⟨?_, List.chain'_singleton _⟩
    intro s hs
    rw [List.mem_singleton.mp hs]
    refine ⟨le_refl 0, le_refl 0, le_refl 0⟩
  | succ n ih =>
    intro h e
    simp only [run] at e
    rcases en : run n with _ | h₀
    · rw [en] at e
      simp at e
    · rw [en, Option.some_bind] at e
      exact step_histInv (ih h₀ en) e

/-- C5: every state of any completed driver run from the all-zero genesis
state has a non-negative rebate pool (the step clamps `r_pool` at 0). -/
theorem run_r_pool_nonneg (n : Nat) (h : List State) (e : run n = some h) :
    ∀ s ∈ h, 0 ≤ s.r_pool :=
  fun s hs => ((run_histInv n h e).1 s hs).2.1

/-- Witness for C5 after one driver step. -/
theorem run_r_pool_nonneg_witness : (0 : ℚ) ≤ epoch1.r_pool :=
  run_r_pool_nonneg 1 [State.default, epoch1] run_one epoch1 (by simp)

/-- C10: along any driver run from genesis, unclaimed fees stay non-negative
and claimed fees never decrease from one state to the next. -/
theorem run_fees_monotone (n : Nat) (h : List State) (e : run n = some h) :
    (∀ s ∈ h, 0 ≤ s.f_unclaimed) ∧
    h.Chain' fun a b => a.f_claimed ≤ b.f_claimed :=
  ⟨fun s hs => ((run_histInv n h e).1 s hs).2.2, (run_histInv n h e).2⟩

/-- Witness for C10 after one driver step. -/
theorem run_fees_monotone_witness : (0 : ℚ) ≤ epoch1.f_unclaimed :=
  (run_fees_monotone 1 [State.default, epoch1] run_one).1 epoch1 (by simp)

/-- C6: the first epoch step from the all-zero genesis state produces exactly
the values of the spec's end-to-end scenario: `mv = 4M`, `bv = 2M`,
`mf = 0.003`, `bf = 0`, `r = 0`, gross fees `12000`, rebate collected `6000`,
net fees `6000`, and the new state
`(tvb, tvl, tvr, f_unclaimed, f_claimed, r_pool) = (0, 2M, 6000, 6000, 0, 6000)`. -/
theorem first_epoch_values :
    mint_volume [State.default] = 4000000 ∧
    burn_volume [State.default] = some 2000000 ∧
    mint_fee_curve [State.default] = 3 / 1000 ∧
    burn_fee_curve [State.default] = some 0 ∧
    rebate_curve [State.default] = some 0 ∧
    mint_volume [State.default] * mint_fee_curve [State.default] + 2000000 * 0 = 12000 ∧
    rebate_collected [State.default] 12000 = 6000 ∧
    (12000 : ℚ) - 6000 = 6000 ∧
    run 1 = some [State.default,
      { tvb := 0, tvl := 2000000, tvr := 6000, mf := 3 / 1000, bf := 0, r := 0
        f_unclaimed := 6000, f_claimed := 0, r_pool := 6000 }] := by
  refine ⟨rfl, ?_, rfl, ?_, ?_, by norm_num [mint_volume, mint_fee_curve], ?_, by norm_num, ?_⟩
  · norm_num [burn_volume, latest_state, burn_volume_of, State.default]
  · norm_num [burn_fee_curve, latest_state, burn_fee_curve_of, State.default]
  · norm_num [rebate_curve, latest_state, rebate_curve_of, State.default]
  · norm_num [rebate_collected]
  · exact run_one
